import Mathlib

/-!
Shallow embedding of the IdeaField spatial-layout core (store, camera,
physics reconciliation, geometry) and proofs about its specified behaviour.

Sources embedded:
* `src/src/types/index.ts` — data model and `PHYSICS_CONFIG`.
* `src/src/hooks/useIdeaStore.ts` — the zustand store actions.
* `src/src/hooks/usePhysicsSimulation.ts` — shadow-node reconciliation,
  edge filtering, `setNodePosition`.
* the bezier utilities (`getEdgePoint`).

Numbers are embedded as `ℚ` (exact) except the trigonometric edge-anchor
computation, which lives over `ℝ`.
-/

namespace IdeaField

/-- Node status, from `NodeStatus` in `src/src/types/index.ts`. -/
inductive NodeStatusType where
  | seed
  | sprout
  | flowering
  | fruit
deriving DecidableEq, Repr

/-- Edge type, from `EdgeType` in `src/src/types/index.ts`. -/
inductive EdgeTypeType where
  | derive
  | implement
deriving DecidableEq, Repr

/-- Canonical node record, from `IdeaNode` in `src/src/types/index.ts`. -/
structure IdeaNode where
  id : String
  parentId : Option String
  text : String
  status : NodeStatusType
  x : ℚ
  y : ℚ
  radius : ℚ
  energy : ℚ
  color : String
  createdAt : ℚ
deriving DecidableEq, Repr

/-- Edge record, from `IdeaEdge` in `src/src/types/index.ts`. -/
structure IdeaEdge where
  id : String
  sourceId : String
  targetId : String
  type : EdgeTypeType
deriving DecidableEq, Repr

/-- Camera state, from `CameraState` in `src/src/types/index.ts`. -/
structure CameraState where
  scale : ℚ
  offsetX : ℚ
  offsetY : ℚ
deriving DecidableEq, Repr

/-- Drag-spawn transient state, from `DragSpawnState` in `src/src/types/index.ts`. -/
structure DragSpawnState where
  isDragging : Bool
  sourceNodeId : Option String
  startX : ℚ
  startY : ℚ
  currentX : ℚ
  currentY : ℚ
deriving DecidableEq, Repr

/-- The store state held by `useIdeaStore` (`src/src/hooks/useIdeaStore.ts`). -/
structure IdeaState where
  nodes : List IdeaNode
  edges : List IdeaEdge
  camera : CameraState
  dragSpawn : DragSpawnState
  selectedNodeId : Option String
  editingNodeId : Option String
  canvasWidth : ℚ
  canvasHeight : ℚ
deriving DecidableEq, Repr

/-- `Object.values(NODE_COLORS)` in insertion order (`src/src/types/index.ts`). -/
def nodeColorsList : List String :=
  ["#6B30FF", "#452F8F", "#A78BFF", "#2895F7",
   "#00C853", "#00BCD4", "#E91E63", "#FF9800"]

/-- `getRandomColor` in `useIdeaStore.ts`:
`colors[Math.floor(Math.random() * colors.length)]`, with the call to
`Math.random()` made explicit as the parameter `r ∈ [0, 1)`. -/
def getRandomColor (r : ℚ) : String :=
  nodeColorsList.getD (Int.toNat ⌊r * (nodeColorsList.length : ℚ)⌋) ""

/-- JS `v || d` on an optional numeric field: `undefined` and the falsy
value `0` both fall back to the default. -/
def jsOrNum (v : Option ℚ) (d : ℚ) : ℚ :=
  match v with
  | none => d
  | some x => if x = 0 then d else x

/-- JS `v || d` on an optional string field: `undefined` and the falsy
empty string both fall back to the default. -/
def jsOrStr (v : Option String) (d : String) : String :=
  match v with
  | none => d
  | some s => if s = "" then d else s

/-- JS `v || d` on an optional status field (every status value is a
nonempty string, hence truthy). -/
def jsOrStatus (v : Option NodeStatusType) (d : NodeStatusType) : NodeStatusType :=
  v.getD d

/-- Argument of `addNode`: `Partial<IdeaNode> & { x, y, text }`. -/
structure AddNodeData where
  x : ℚ
  y : ℚ
  text : String
  status : Option NodeStatusType
  radius : Option ℚ
  energy : Option ℚ
  color : Option String
  parentId : Option String
deriving DecidableEq, Repr

/-- `addNode` from `useIdeaStore.ts`. The impure calls `generateId()`,
`Date.now()` and `Math.random()` are made explicit as the parameters
`id`, `now` and `r`; the new node is appended to the node list. -/
def addNode (id : String) (now : ℚ) (r : ℚ) (nodeData : AddNodeData)
    (s : IdeaState) : String × IdeaState :=
  let newNode : IdeaNode :=
    { id := id
      text := nodeData.text
      x := nodeData.x
      y := nodeData.y
      status := jsOrStatus nodeData.status .seed
      radius := jsOrNum nodeData.radius 35
      energy := jsOrNum nodeData.energy (1/2)
      color := jsOrStr nodeData.color (getRandomColor r)
      parentId := nodeData.parentId
      createdAt := now }
  (id, { s with nodes := s.nodes ++ [newNode] })

/-- `updateNode` from `useIdeaStore.ts`, restricted to the position update
used by the physics tick callback (`updateNode(id, { x, y })`). -/
def updateNodePos (id : String) (x y : ℚ) (s : IdeaState) : IdeaState :=
  { s with
    nodes := s.nodes.map fun node =>
      if node.id = id then { node with x := x, y := y } else node }

/-- `removeNode` from `useIdeaStore.ts`: drops the node, every incident
edge, and clears the selection if it pointed at the removed node. -/
def removeNode (id : String) (s : IdeaState) : IdeaState :=
  { s with
    nodes := s.nodes.filter fun node => node.id != id
    edges := s.edges.filter fun edge => edge.sourceId != id && edge.targetId != id
    selectedNodeId := if s.selectedNodeId = some id then none else s.selectedNodeId }

/-- `pan` from `useIdeaStore.ts`. -/
def pan (dx dy : ℚ) (s : IdeaState) : IdeaState :=
  { s with
    camera :=
      { s.camera with
        offsetX := s.camera.offsetX + dx
        offsetY := s.camera.offsetY + dy } }

/-- `zoom` from `useIdeaStore.ts`: clamp the new scale to `[0.1, 5]` and
reposition the offset about the pivot (`centerX ?? canvasWidth / 2`). -/
def zoom (factor : ℚ) (centerX centerY : Option ℚ) (s : IdeaState) : IdeaState :=
  let cx := centerX.getD (s.canvasWidth / 2)
  let cy := centerY.getD (s.canvasHeight / 2)
  let newScale := max (1/10) (min 5 (s.camera.scale * factor))
  let sr := newScale / s.camera.scale
  { s with
    camera :=
      { scale := newScale
        offsetX := cx - (cx - s.camera.offsetX) * sr
        offsetY := cy - (cy - s.camera.offsetY) * sr } }

/-- `screenToWorld` from the canvas component (`src/unnamed/part_001`):
`(screen - offset) / scale`, componentwise. -/
def screenToWorld (cam : CameraState) (p : ℚ × ℚ) : ℚ × ℚ :=
  ((p.1 - cam.offsetX) / cam.scale, (p.2 - cam.offsetY) / cam.scale)

/-- The inverse transform applied by the Konva `Stage` props
(`scaleX = scale`, `x = offsetX`): `screen = world * scale + offset`. -/
def worldToScreen (cam : CameraState) (w : ℚ × ℚ) : ℚ × ℚ :=
  (w.1 * cam.scale + cam.offsetX, w.2 * cam.scale + cam.offsetY)

/-- `startDragSpawn` from `useIdeaStore.ts`. -/
def startDragSpawn (sourceNodeId : String) (startX startY : ℚ)
    (s : IdeaState) : IdeaState :=
  { s with
    dragSpawn :=
      { isDragging := true
        sourceNodeId := some sourceNodeId
        startX := startX
        startY := startY
        currentX := startX
        currentY := startY } }

/-- `updateDragSpawn` from `useIdeaStore.ts`. -/
def updateDragSpawn (currentX currentY : ℚ) (s : IdeaState) : IdeaState :=
  { s with
    dragSpawn := { s.dragSpawn with currentX := currentX, currentY := currentY } }

/-- Result returned by a completed spawn gesture. -/
structure SpawnResult where
  x : ℚ
  y : ℚ
  sourceNodeId : String
deriving DecidableEq, Repr

/-- `endDragSpawn` from `useIdeaStore.ts`: the guard is the JS truthiness
test `!dragSpawn.isDragging || !dragSpawn.sourceNodeId` — a `null` or
empty-string source id is falsy, so the call returns `null` and leaves the
state alone; with an active gesture and a truthy source id it returns the
release point and source id and resets the transient state. -/
def endDragSpawn (s : IdeaState) : Option SpawnResult × IdeaState :=
  match s.dragSpawn.isDragging, s.dragSpawn.sourceNodeId with
  | true, some src =>
      if src = "" then (none, s)
      else
        (some { x := s.dragSpawn.currentX, y := s.dragSpawn.currentY, sourceNodeId := src },
         { s with
            dragSpawn :=
              { isDragging := false
                sourceNodeId := none
                startX := 0
                startY := 0
                currentX := 0
                currentY := 0 } })
  | _, _ => (none, s)

/-! ### Physics engine shadow state (`src/src/hooks/usePhysicsSimulation.ts`) -/

/-- Shadow physics node (`PhysicsNode` in `usePhysicsSimulation.ts`). -/
structure PhysicsNode where
  id : String
  x : ℚ
  y : ℚ
  vx : ℚ
  vy : ℚ
  radius : ℚ
  fx : Option ℚ
  fy : Option ℚ
deriving DecidableEq, Repr

/-- `convertToPhysicsNode` from `usePhysicsSimulation.ts`: seed a new
shadow node at the canonical position with zero velocity; fruit nodes get
their position locked via `fx`/`fy`. -/
def convertToPhysicsNode (node : IdeaNode) : PhysicsNode :=
  { id := node.id
    x := node.x
    y := node.y
    vx := 0
    vy := 0
    radius := node.radius
    fx := if node.status = .fruit then some node.x else none
    fy := if node.status = .fruit then some node.y else none }

/-- `Map.get` on the shadow map (`nodesRef.current`), modelled as
first-match lookup on an association list keyed by node id. -/
def lookupShadow (m : List (String × PhysicsNode)) (id : String) : Option PhysicsNode :=
  match m with
  | [] => none
  | (k, n) :: rest => if k = id then some n else lookupShadow rest id

/-- The reconcile branch for a node already present in the shadow map:
position and radius are refreshed from the canonical node, `fx`/`fy`
recomputed from the status; velocity is left untouched. -/
def refreshExisting (ex : PhysicsNode) (node : IdeaNode) : PhysicsNode :=
  { ex with
    x := node.x
    y := node.y
    radius := node.radius
    fx := if node.status = .fruit then some node.x else none
    fy := if node.status = .fruit then some node.y else none }

/-- Per-node body of the reconcile loop in the `usePhysicsSimulation`
effect: reuse-and-refresh an existing shadow node, or create a new one. -/
def reconcileNode (old : List (String × PhysicsNode)) (node : IdeaNode) : PhysicsNode :=
  match lookupShadow old node.id with
  | some ex => refreshExisting ex node
  | none => convertToPhysicsNode node

/-- The reconcile loop: build `newNodesMap` from the canonical node list,
looking each node up in the old shadow map. -/
def reconcileNodes (old : List (String × PhysicsNode)) (nodes : List IdeaNode) :
    List (String × PhysicsNode) :=
  nodes.map fun n => (n.id, reconcileNode old n)

/-- The `physicsEdges` computation: keep only edges whose two endpoints
are present in the freshly built shadow map, then project to
`(sourceId, targetId)` pairs. -/
def physicsEdges (m : List (String × PhysicsNode)) (edges : List IdeaEdge) :
    List (String × String) :=
  (edges.filter fun e =>
      (lookupShadow m e.sourceId).isSome && (lookupShadow m e.targetId).isSome).map
    fun e => (e.sourceId, e.targetId)

/-- Modelled from the spec: installing links makes the layout engine
resolve each link's endpoint ids against the current node set (§4.2
step 2 applies spring forces only to edges whose both endpoints exist);
an unresolvable id is the engine's failure case for links, which the
spec's contract demands never fires ("filtered, not an error"). -/
def resolveLink (m : List (String × PhysicsNode)) (l : String × String) :
    Except String (PhysicsNode × PhysicsNode) :=
  match lookupShadow m l.1, lookupShadow m l.2 with
  | some s, some t => Except.ok (s, t)
  | none, _ => Except.error l.1
  | _, none => Except.error l.2

/-- `PHYSICS_CONFIG.alpha.start` (`src/src/types/index.ts`). -/
def alphaStart : ℚ := 1

/-- `PHYSICS_CONFIG.alpha.min` (`src/src/types/index.ts`). -/
def alphaMin : ℚ := 1/1000

/-- `PHYSICS_CONFIG.alpha.decay` (`src/src/types/index.ts`). -/
def alphaDecay : ℚ := 1/50

/-- `PHYSICS_CONFIG.forceCenter.strength` (`src/src/types/index.ts`). -/
def forceCenterStrength : ℚ := 3/100

/-- The engine state the reconcile effect's update branch touches:
the shadow node map, the active link set, the centering-force target,
and the simulation energy. -/
structure EngineState where
  shadow : List (String × PhysicsNode)
  links : List (String × String)
  center : ℚ × ℚ
  alpha : ℚ
deriving DecidableEq, Repr

/-- The simulation-update branch of the reconcile effect
(`usePhysicsSimulation.ts`, the `else` branch): install the reconciled
node map, the filtered links, the refreshed centering force, and re-heat
alpha to its start value. -/
def reconcileSim (nodes : List IdeaNode) (edges : List IdeaEdge)
    (canvasWidth canvasHeight : ℚ) (s : EngineState) : EngineState :=
  let m := reconcileNodes s.shadow nodes
  { shadow := m
    links := physicsEdges m edges
    center := (canvasWidth / 2, canvasHeight / 2)
    alpha := alphaStart }

/-- `setNodePosition` from `usePhysicsSimulation.ts`: overwrite the shadow
position and zero the velocity of the addressed node; `fx`/`fy` are not
touched. -/
def setNodePosition (m : List (String × PhysicsNode)) (nodeId : String) (x y : ℚ) :
    List (String × PhysicsNode) :=
  m.map fun p =>
    if p.1 = nodeId then (p.1, { p.2 with x := x, y := y, vx := 0, vy := 0 }) else p

/-- Modelled from the spec: the repository drives ticks through the
`d3-force` dependency, whose source is not under `src/`; §4.2 step 5
gives the integration contract — `position += velocity` for free nodes,
while a node whose pinned position (`fx`/`fy`) is set holds exactly at
the pinned coordinates with zero velocity. -/
def integrateNode (n : PhysicsNode) : PhysicsNode :=
  { n with
    x := match n.fx with | none => n.x + n.vx | some px => px
    vx := match n.fx with | none => n.vx | some _ => 0
    y := match n.fy with | none => n.y + n.vy | some py => py
    vy := match n.fy with | none => n.vy | some _ => 0 }

/-- Modelled from the spec: one tick of the layout engine (§4.2) — the
force pipeline (steps 1–4) accumulates onto velocities, then step 5
integrates every node. The pipeline is a parameter because the engine
composes four configurable forces. -/
def tickWith (force : ℚ → List PhysicsNode → List PhysicsNode) (alpha : ℚ)
    (ns : List PhysicsNode) : List PhysicsNode :=
  (force alpha ns).map integrateNode

/-- Modelled from the spec: §4.2 step 4, the weak centering force — pulls
every non-pinned node toward the viewport center with the configured
strength, scaled by alpha. -/
def centeringForce (cx cy strength : ℚ) (alpha : ℚ) (ns : List PhysicsNode) :
    List PhysicsNode :=
  ns.map fun n =>
    { n with
      vx := match n.fx with
            | none => n.vx + (cx - n.x) * strength * alpha
            | some _ => n.vx
      vy := match n.fy with
            | none => n.vy + (cy - n.y) * strength * alpha
            | some _ => n.vy }

/-- Modelled from the spec: per-tick alpha decay (§4.2 step 6),
`alpha *= (1 - alphaDecay)`, with the configured decay `0.02`. -/
def alphaStep (a : ℚ) : ℚ := a * (1 - alphaDecay)

/-! ### Geometry (`getEdgePoint` from the bezier utilities) -/

/-- `getEdgePoint` from the bezier utilities: project from the node
center onto its circular boundary along the direction toward the target,
via `Math.atan2` (embedded as `Complex.arg`, which agrees with
`atan2(y, x)` on its whole domain). -/
noncomputable def getEdgePoint (fromX fromY fromRadius toX toY : ℝ) : ℝ × ℝ :=
  let angle := Complex.arg ⟨toX - fromX, toY - fromY⟩
  (fromX + Real.cos angle * fromRadius, fromY + Real.sin angle * fromRadius)

/-! ### Shared fixtures for concrete evaluations -/

/-- An empty store state with an 800×600 canvas. -/
def state0 : IdeaState :=
  { nodes := []
    edges := []
    camera := { scale := 1, offsetX := 0, offsetY := 0 }
    dragSpawn :=
      { isDragging := false, sourceNodeId := none
        startX := 0, startY := 0, currentX := 0, currentY := 0 }
    selectedNodeId := none
    editingNodeId := none
    canvasWidth := 800
    canvasHeight := 600 }

/-- A concrete seed node. -/
def nodeA : IdeaNode :=
  { id := "a", parentId := none, text := "idea", status := .seed
    x := 0, y := 0, radius := 35, energy := 1/2, color := "#6B30FF", createdAt := 0 }

/-! ### Claims about the store -/

/-- Helper: an element picked out of a list by `getD` at an in-bounds
index is a member of the list. -/
theorem getD_mem_of_lt {l : List String} {k : ℕ} (hk : k < l.length) :
    l.getD k "" ∈ l := by
  induction l generalizing k with
  | nil => simp at hk
  | cons a t ih =>
      cases k with
      | zero => simp [List.getD]
      | succ k =>
          simp only [List.getD_cons_succ]
          exact List.mem_cons_of_mem _ (ih (by simpa using hk))

/-- Helper: for a random sample `r ∈ [0, 1)`, `getRandomColor` lands in
the theme color list. -/
theorem getRandomColor_mem {r : ℚ} (hr0 : 0 ≤ r) (hr1 : r < 1) :
    getRandomColor r ∈ nodeColorsList := by
  have h8 : (nodeColorsList.length : ℚ) = 8 := by decide
  have hlo : (0 : ℤ) ≤ ⌊r * (nodeColorsList.length : ℚ)⌋ := by
    apply Int.floor_nonneg.mpr
    have : (0:ℚ) ≤ (nodeColorsList.length : ℚ) := by norm_num [h8]
    exact mul_nonneg hr0 this
  have hhi : ⌊r * (nodeColorsList.length : ℚ)⌋ < 8 := by
    apply Int.floor_lt.mpr
    rw [h8]
    push_cast
    nlinarith
  have hk : Int.toNat ⌊r * (nodeColorsList.length : ℚ)⌋ < nodeColorsList.length := by
    have : Int.toNat ⌊r * (nodeColorsList.length : ℚ)⌋ < 8 := by omega
    simpa [nodeColorsList] using this
  exact getD_mem_of_lt hk

/-- C9: at the public store interface, `addNode` substitutes its defaults
not only for absent fields but for any falsy value — radius `0` becomes
`35`, energy `0` becomes `0.5`, and an empty-string color is replaced by
a random theme color. -/
theorem addNode_falsy_defaults (id : String) (now r : ℚ) (nodeData : AddNodeData)
    (s : IdeaState) (hr0 : 0 ≤ r) (hr1 : r < 1) :
    ∃ n : IdeaNode, (addNode id now r nodeData s).2.nodes = s.nodes ++ [n]
      ∧ (nodeData.radius = some 0 → n.radius = 35)
      ∧ (nodeData.radius = none → n.radius = 35)
      ∧ (nodeData.energy = some 0 → n.energy = 1/2)
      ∧ (nodeData.color = some "" → n.color = getRandomColor r
            ∧ n.color ∈ nodeColorsList) := by
  refine ⟨_, rfl, ?_, ?_, ?_, ?_⟩
  · intro h; simp [addNode, jsOrNum, h]
  · intro h; simp [addNode, jsOrNum, h]
  · intro h; simp [addNode, jsOrNum, h]
  · intro h
    constructor
    · simp [addNode, jsOrStr, h]
    · simpa [addNode, jsOrStr, h] using getRandomColor_mem hr0 hr1

/-- Witness for C9 at a concrete falsy call. -/
theorem addNode_falsy_defaults_witness :
    (0 ≤ (1:ℚ)/2) ∧ ((1:ℚ)/2 < 1) ∧
    (∃ n : IdeaNode,
      (addNode "n1" 0 (1/2)
        { x := 1, y := 2, text := "t", status := none, radius := some 0
          energy := some 0, color := some "", parentId := none } state0).2.nodes
        = state0.nodes ++ [n]
      ∧ (some (0:ℚ) = some 0 → n.radius = 35)
      ∧ ((some (0:ℚ) : Option ℚ) = none → n.radius = 35)
      ∧ (some (0:ℚ) = some 0 → n.energy = 1/2)
      ∧ (some "" = some "" → n.color = getRandomColor (1/2)
            ∧ n.color ∈ nodeColorsList)) :=
  ⟨by norm_num, by norm_num,
    addNode_falsy_defaults "n1" 0 (1/2) _ state0 (by norm_num) (by norm_num)⟩

/-- C10: `removeNode id` removes the node, removes every incident edge in
the same operation, clears the selection only when it pointed at the
removed node, and leaves all other nodes, edges, and the camera (and the
rest of the state) unchanged. -/
theorem removeNode_complete (id : String) (s : IdeaState) :
    (∀ n ∈ (removeNode id s).nodes, n.id ≠ id)
    ∧ (∀ e ∈ (removeNode id s).edges, e.sourceId ≠ id ∧ e.targetId ≠ id)
    ∧ (removeNode id s).selectedNodeId
        = (if s.selectedNodeId = some id then none else s.selectedNodeId)
    ∧ (removeNode id s).nodes = s.nodes.filter (fun n => n.id != id)
    ∧ (removeNode id s).edges
        = s.edges.filter (fun e => e.sourceId != id && e.targetId != id)
    ∧ (removeNode id s).camera = s.camera
    ∧ (removeNode id s).dragSpawn = s.dragSpawn
    ∧ (removeNode id s).editingNodeId = s.editingNodeId
    ∧ (removeNode id s).canvasWidth = s.canvasWidth
    ∧ (removeNode id s).canvasHeight = s.canvasHeight := by
  refine ⟨?_, ?_, rfl, rfl, rfl, rfl, rfl, rfl, rfl, rfl⟩
  · intro n hn
    have h := List.of_mem_filter hn
    simpa using h
  · intro e he
    have h := List.of_mem_filter he
    simpa using h

/-- C6: a spawn gesture started from node `a` (whose id, like every
store-generated id, is a nonempty string) and released — at any point,
including the start point itself — yields exactly one completion result
carrying the source id and the current world point; the transient state
is cleared, and a second release yields nothing. -/
theorem endDragSpawn_exactly_one_result (s : IdeaState) (a : String)
    (px py qx qy : ℚ) (ha : a ≠ "") :
    (endDragSpawn (updateDragSpawn qx qy (startDragSpawn a px py s))).1
        = some { x := qx, y := qy, sourceNodeId := a }
    ∧ (endDragSpawn (startDragSpawn a px py s)).1
        = some { x := px, y := py, sourceNodeId := a }
    ∧ (endDragSpawn (updateDragSpawn qx qy (startDragSpawn a px py s))).2.dragSpawn.isDragging
        = false
    ∧ (endDragSpawn
        (endDragSpawn (updateDragSpawn qx qy (startDragSpawn a px py s))).2).1
        = none := by
  refine ⟨?_, ?_, ?_, ?_⟩ <;> simp [startDragSpawn, updateDragSpawn, endDragSpawn, ha]

/-- Witness for C6 at a concrete gesture. -/
theorem endDragSpawn_exactly_one_result_witness :
    (endDragSpawn (updateDragSpawn 5 6 (startDragSpawn "a" 1 2 state0))).1
      = some { x := 5, y := 6, sourceNodeId := "a" } :=
  (endDragSpawn_exactly_one_result state0 "a" 1 2 5 6 (by decide)).1

/-- Witness for C10 at a concrete state. -/
theorem removeNode_complete_witness :
    (removeNode "a" state0).camera = state0.camera :=
  (removeNode_complete "a" state0).2.2.2.2.2.1

/-- C3: with the camera scale within `[0.1, 5]`, `zoom` sets the new scale
to `clamp(scale * factor, 0.1, 5)`, sets the offset by the pivot formula,
keeps the pivot's world point at the same screen point, and defaults the
pivot to the viewport center when none is given. -/
theorem zoom_pivot_preserving (s : IdeaState) (factor px py : ℚ)
    (hlo : 1/10 ≤ s.camera.scale) (hhi : s.camera.scale ≤ 5) :
    ((zoom factor (some px) (some py) s).camera.scale
        = max (1/10) (min 5 (s.camera.scale * factor)))
    ∧ ((zoom factor (some px) (some py) s).camera.offsetX
        = px - (px - s.camera.offsetX)
            * ((zoom factor (some px) (some py) s).camera.scale / s.camera.scale))
    ∧ ((zoom factor (some px) (some py) s).camera.offsetY
        = py - (py - s.camera.offsetY)
            * ((zoom factor (some px) (some py) s).camera.scale / s.camera.scale))
    ∧ worldToScreen (zoom factor (some px) (some py) s).camera
        (screenToWorld s.camera (px, py)) = (px, py)
    ∧ zoom factor none none s
        = zoom factor (some (s.canvasWidth / 2)) (some (s.canvasHeight / 2)) s := by
  have hpos : (0:ℚ) < s.camera.scale := lt_of_lt_of_le (by norm_num) hlo
  have hne : s.camera.scale ≠ 0 := ne_of_gt hpos
  refine ⟨rfl, rfl, rfl, ?_, rfl⟩
  simp only [zoom, worldToScreen, screenToWorld, Prod.mk.injEq]
  constructor <;> field_simp

/-- Witness for C3 at a concrete camera and pivot. -/
theorem zoom_pivot_preserving_witness :
    ((zoom 2 (some 3) (some 4) state0).camera.scale
        = max (1/10) (min 5 (state0.camera.scale * 2)))
    ∧ ((zoom 2 (some 3) (some 4) state0).camera.offsetX
        = 3 - (3 - state0.camera.offsetX)
            * ((zoom 2 (some 3) (some 4) state0).camera.scale / state0.camera.scale))
    ∧ ((zoom 2 (some 3) (some 4) state0).camera.offsetY
        = 4 - (4 - state0.camera.offsetY)
            * ((zoom 2 (some 3) (some 4) state0).camera.scale / state0.camera.scale))
    ∧ worldToScreen (zoom 2 (some 3) (some 4) state0).camera
        (screenToWorld state0.camera (3, 4)) = (3, 4)
    ∧ zoom 2 none none state0
        = zoom 2 (some (state0.canvasWidth / 2)) (some (state0.canvasHeight / 2)) state0 :=
  zoom_pivot_preserving state0 2 3 4 (by norm_num [state0]) (by norm_num [state0])

/-! ### Claims about the physics reconciliation -/

/-- A shadow node that has drifted from its canonical record. -/
def shadowDrift : PhysicsNode :=
  { id := "a", x := 10, y := 10, vx := 1, vy := 2, radius := 35, fx := none, fy := none }

/-- C2 counterexample: for a node present in both the old shadow map and
the new canonical set, reconciliation does NOT retain the shadow
position — it is overwritten with the canonical position. -/
theorem reconcile_position_not_retained :
    ¬ ((reconcileNode [("a", shadowDrift)] nodeA).x = shadowDrift.x
        ∧ (reconcileNode [("a", shadowDrift)] nodeA).y = shadowDrift.y) := by
  decide

/-- C2 (amended): reconciliation retains the shadow velocity of nodes
present in both sets (continuity) but overwrites their shadow position
with the canonical position; newly present nodes are seeded at the
canonical position with zero velocity; nodes no longer present are
dropped from the shadow map. -/
theorem reconcileNodes_continuity (old : List (String × PhysicsNode))
    (nodes : List IdeaNode) :
    (∀ n ∈ nodes, ∀ ex, lookupShadow old n.id = some ex →
        (reconcileNode old n).vx = ex.vx ∧ (reconcileNode old n).vy = ex.vy
        ∧ (reconcileNode old n).x = n.x ∧ (reconcileNode old n).y = n.y)
    ∧ (∀ n ∈ nodes, lookupShadow old n.id = none →
        reconcileNode old n = convertToPhysicsNode n
        ∧ (reconcileNode old n).x = n.x ∧ (reconcileNode old n).y = n.y
        ∧ (reconcileNode old n).vx = 0 ∧ (reconcileNode old n).vy = 0)
    ∧ (∀ id, (∀ n ∈ nodes, n.id ≠ id) →
        lookupShadow (reconcileNodes old nodes) id = none) := by
  refine ⟨?_, ?_, ?_⟩
  · intro n _ ex hex
    simp [reconcileNode, hex, refreshExisting]
  · intro n _ hnone
    simp [reconcileNode, hnone, convertToPhysicsNode]
  · intro id hid
    induction nodes with
    | nil => rfl
    | cons m rest ih =>
        have hm : m.id ≠ id := hid m (List.mem_cons_self m rest)
        simp only [reconcileNodes, List.map_cons, lookupShadow, if_neg hm]
        exact ih fun n hn => hid n (List.mem_cons_of_mem m hn)

/-- Witness for C2's amended claim at a concrete pair of sets. -/
theorem reconcileNodes_continuity_witness :
    (reconcileNode [("a", shadowDrift)] nodeA).vx = shadowDrift.vx
    ∧ (reconcileNode [("a", shadowDrift)] nodeA).vy = shadowDrift.vy
    ∧ (reconcileNode [("a", shadowDrift)] nodeA).x = nodeA.x
    ∧ (reconcileNode [("a", shadowDrift)] nodeA).y = nodeA.y :=
  (reconcileNodes_continuity [("a", shadowDrift)] [nodeA]).1 nodeA
    (List.mem_singleton.mpr rfl) shadowDrift (by decide)

/-- Helper: after reconciling, looking a canonical node's id up in the
fresh shadow map yields exactly that node's reconciled entry (ids must be
distinct, as the store's generated ids are). -/
theorem lookupShadow_reconcileNodes_self (old : List (String × PhysicsNode))
    (nodes : List IdeaNode) (hnd : (nodes.map IdeaNode.id).Nodup) :
    ∀ n ∈ nodes,
      lookupShadow (reconcileNodes old nodes) n.id = some (reconcileNode old n) := by
  induction nodes with
  | nil => simp
  | cons m rest ih =>
      intro n hn
      rw [List.map_cons, List.nodup_cons] at hnd
      rcases List.mem_cons.mp hn with rfl | hn
      · simp [reconcileNodes, lookupShadow]
      · have hne : m.id ≠ n.id := by
          intro h
          exact hnd.1 (h ▸ List.mem_map_of_mem IdeaNode.id hn)
        simp only [reconcileNodes, List.map_cons, lookupShadow, if_neg hne]
        exact ih hnd.2 n hn

/-- Helper: refreshing a just-reconciled node with the same canonical
record changes nothing. -/
theorem refreshExisting_reconcileNode (old : List (String × PhysicsNode))
    (n : IdeaNode) :
    refreshExisting (reconcileNode old n) n = reconcileNode old n := by
  unfold reconcileNode
  cases lookupShadow old n.id with
  | some ex => rfl
  | none => rfl

/-- Helper: reconciling twice against the same canonical node list is the
same as reconciling once. -/
theorem reconcileNodes_idem (old : List (String × PhysicsNode))
    (nodes : List IdeaNode) (hnd : (nodes.map IdeaNode.id).Nodup) :
    reconcileNodes (reconcileNodes old nodes) nodes = reconcileNodes old nodes := by
  apply List.map_congr_left
  intro n hn
  have h1 := lookupShadow_reconcileNodes_self old nodes hnd n hn
  have h2 : reconcileNode (reconcileNodes old nodes) n = reconcileNode old n := by
    rw [reconcileNode, h1]
    exact refreshExisting_reconcileNode old n
  rw [h2]

/-- C4: reconciling the simulation with an unchanged node and edge set is
idempotent — a second application leaves the whole engine state (shadow
map, links, center and alpha) exactly as after the first. -/
theorem reconcileSim_idempotent (nodes : List IdeaNode) (edges : List IdeaEdge)
    (cw ch : ℚ) (s : EngineState) (hnd : (nodes.map IdeaNode.id).Nodup) :
    reconcileSim nodes edges cw ch (reconcileSim nodes edges cw ch s)
      = reconcileSim nodes edges cw ch s := by
  simp only [reconcileSim]
  rw [reconcileNodes_idem _ _ hnd]

/-- A blank engine state. -/
def engine0 : EngineState := { shadow := [], links := [], center := (0, 0), alpha := 1 }

/-- Witness for C4 at a concrete graph. -/
theorem reconcileSim_idempotent_witness :
    ([nodeA].map IdeaNode.id).Nodup
    ∧ reconcileSim [nodeA] [] 800 600 (reconcileSim [nodeA] [] 800 600 engine0)
        = reconcileSim [nodeA] [] 800 600 engine0 :=
  ⟨by decide, reconcileSim_idempotent [nodeA] [] 800 600 engine0 (by decide)⟩

/-- C7: an edge with a missing endpoint never enters the active link set;
every admitted link resolves both endpoints in the shadow map, so
installing the links in the layout engine never reaches its missing-id
failure case (no crash, no absent endpoint value to propagate). -/
theorem physicsEdges_filters_missing (m : List (String × PhysicsNode))
    (edges : List IdeaEdge) :
    (∀ e ∈ edges,
        (lookupShadow m e.sourceId = none ∨ lookupShadow m e.targetId = none) →
        (e.sourceId, e.targetId) ∉ physicsEdges m edges)
    ∧ (∀ l ∈ physicsEdges m edges,
        (lookupShadow m l.1).isSome ∧ (lookupShadow m l.2).isSome)
    ∧ (∀ l ∈ physicsEdges m edges, ∃ st, resolveLink m l = Except.ok st) := by
  have h2 : ∀ l ∈ physicsEdges m edges,
      (lookupShadow m l.1).isSome ∧ (lookupShadow m l.2).isSome := by
    intro l hl
    simp only [physicsEdges, List.mem_map] at hl
    obtain ⟨e, he, rfl⟩ := hl
    have h := List.of_mem_filter he
    simpa using h
  refine ⟨?_, h2, ?_⟩
  · intro e _ hnone hmem
    have h := h2 _ hmem
    rcases hnone with h1 | h1 <;> simp [h1] at h
  · intro l hl
    obtain ⟨hs, ht⟩ := h2 l hl
    obtain ⟨ns, hns⟩ := Option.isSome_iff_exists.mp hs
    obtain ⟨nt, hnt⟩ := Option.isSome_iff_exists.mp ht
    exact ⟨(ns, nt), by simp [resolveLink, hns, hnt]⟩

/-- An edge whose target id matches no node. -/
def ghostEdge : IdeaEdge := { id := "e1", sourceId := "a", targetId := "ghost", type := .derive }

/-- A second concrete node. -/
def nodeB : IdeaNode :=
  { id := "b", parentId := some "a", text := "child", status := .sprout
    x := 120, y := 40, radius := 30, energy := 1/2, color := "#2895F7", createdAt := 1 }

/-- An edge between the two existing nodes. -/
def goodEdge : IdeaEdge := { id := "e2", sourceId := "a", targetId := "b", type := .derive }

/-- Witness for C7: the dangling edge is filtered out of the link set,
and a link between existing nodes resolves without reaching the failure
case. -/
theorem physicsEdges_filters_missing_witness :
    (("a", "ghost") ∉ physicsEdges (reconcileNodes [] [nodeA]) [ghostEdge])
    ∧ (∃ st, resolveLink (reconcileNodes [] [nodeA, nodeB]) ("a", "b")
        = Except.ok st) :=
  ⟨(physicsEdges_filters_missing (reconcileNodes [] [nodeA]) [ghostEdge]).1 ghostEdge
      (List.mem_singleton.mpr rfl) (Or.inr (by decide)),
    (physicsEdges_filters_missing (reconcileNodes [] [nodeA, nodeB]) [goodEdge]).2.2
      ("a", "b") (by decide)⟩

/-! ### Claims about the tick (pin invariant, alpha decay) -/

/-- The shadow node of a non-fruit canonical node, as the drag handler
sees it before a drag move. -/
def dragShadow : PhysicsNode :=
  { id := "a", x := 50, y := 50, vx := 0, vy := 0, radius := 35, fx := none, fy := none }

/-- C1 counterexample: a node positioned through `setNodePosition` (the
engine's set-position operation used during a drag) is not pinned — the
very next tick displaces it away from the dictated coordinates (here the
centering force pushes it from `x = 100` to `x = 109`). -/
theorem setNodePosition_not_pinned :
    ((tickWith (centeringForce 400 300 forceCenterStrength) 1
        ((setNodePosition [("a", dragShadow)] "a" 100 100).map Prod.snd)).map
      PhysicsNode.x ≠ [100])
    ∧ ((tickWith (centeringForce 400 300 forceCenterStrength) 1
        ((setNodePosition [("a", dragShadow)] "a" 100 100).map Prod.snd)).map
      PhysicsNode.x = [109]) := by
  constructor <;>
    norm_num [tickWith, centeringForce, setNodePosition, integrateNode, dragShadow,
      forceCenterStrength]

/-- C1 (amended): a node whose shadow pin (`fx`/`fy`) is set — which the
engine does exactly for `fruit` status — ends every tick exactly at the
pinned coordinates with zero velocity, whatever the force pipeline does
to positions and velocities; `setNodePosition` does not pin: it leaves
every node's `fx`/`fy` untouched. -/
theorem pinned_node_holds_exactly :
    (∀ (force : ℚ → List PhysicsNode → List PhysicsNode) (alpha : ℚ)
        (ns : List PhysicsNode) (i : ℕ)
        (hfx : (force alpha ns).map PhysicsNode.fx = ns.map PhysicsNode.fx)
        (hfy : (force alpha ns).map PhysicsNode.fy = ns.map PhysicsNode.fy)
        (hi : i < ns.length) (px py : ℚ),
        (ns.get ⟨i, hi⟩).fx = some px → (ns.get ⟨i, hi⟩).fy = some py →
        ∀ hj : i < (tickWith force alpha ns).length,
          ((tickWith force alpha ns).get ⟨i, hj⟩).x = px
          ∧ ((tickWith force alpha ns).get ⟨i, hj⟩).y = py
          ∧ ((tickWith force alpha ns).get ⟨i, hj⟩).vx = 0
          ∧ ((tickWith force alpha ns).get ⟨i, hj⟩).vy = 0)
    ∧ (∀ (m : List (String × PhysicsNode)) (nodeId : String) (x y : ℚ),
        (setNodePosition m nodeId x y).map (fun p => p.2.fx)
            = m.map (fun p => p.2.fx)
        ∧ (setNodePosition m nodeId x y).map (fun p => p.2.fy)
            = m.map (fun p => p.2.fy)) := by
  constructor
  · intro force alpha ns i hfx hfy hi px py hpx hpy hj
    have hlen : i < (force alpha ns).length := by
      have h := congrArg List.length hfx
      simp only [List.length_map] at h
      omega
    have hget : (tickWith force alpha ns).get ⟨i, hj⟩
        = integrateNode ((force alpha ns).get ⟨i, hlen⟩) := by
      simp [tickWith, List.getElem_map]
    have hx : ((force alpha ns).get ⟨i, hlen⟩).fx = some px := by
      have h := congrArg (fun l => l[i]?) hfx
      simp only [List.getElem?_map, List.getElem?_eq_getElem hlen,
        List.getElem?_eq_getElem hi] at h
      have h2 : ((force alpha ns).get ⟨i, hlen⟩).fx = (ns.get ⟨i, hi⟩).fx := by
        simpa [List.get_eq_getElem] using h
      rw [h2, hpx]
    have hy : ((force alpha ns).get ⟨i, hlen⟩).fy = some py := by
      have h := congrArg (fun l => l[i]?) hfy
      simp only [List.getElem?_map, List.getElem?_eq_getElem hlen,
        List.getElem?_eq_getElem hi] at h
      have h2 : ((force alpha ns).get ⟨i, hlen⟩).fy = (ns.get ⟨i, hi⟩).fy := by
        simpa [List.get_eq_getElem] using h
      rw [h2, hpy]
    rw [hget]
    simp only [List.get_eq_getElem] at hx hy
    simp [integrateNode, hx, hy]
  · intro m nodeId x y
    constructor <;>
    · induction m with
      | nil => rfl
      | cons p rest ih =>
          simp only [setNodePosition, List.map_cons] at *
          by_cases h : p.1 = nodeId <;> simp [h, ih]

/-- A pinned (fruit-status) shadow node with stale velocity. -/
def fruitShadow : PhysicsNode :=
  { id := "f", x := 7, y := 8, vx := 3, vy := 4, radius := 45, fx := some 7, fy := some 8 }

/-- Witness for C1's amended claim: a fruit-pinned node subjected to the
centering force still ends the tick exactly at its pinned coordinates. -/
theorem pinned_node_holds_exactly_witness :
    ((tickWith (centeringForce 400 300 forceCenterStrength) 1 [fruitShadow]).get
        ⟨0, by decide⟩).x = 7
    ∧ ((tickWith (centeringForce 400 300 forceCenterStrength) 1 [fruitShadow]).get
        ⟨0, by decide⟩).y = 8
    ∧ ((tickWith (centeringForce 400 300 forceCenterStrength) 1 [fruitShadow]).get
        ⟨0, by decide⟩).vx = 0
    ∧ ((tickWith (centeringForce 400 300 forceCenterStrength) 1 [fruitShadow]).get
        ⟨0, by decide⟩).vy = 0 :=
  pinned_node_holds_exactly.1 (centeringForce 400 300 forceCenterStrength) 1
    [fruitShadow] 0 (by decide) (by decide) (by decide) 7 8 (by decide) (by decide)
    (by decide)

/-- Helper: iterating the decay rule multiplies by `(49/50)^n`. -/
theorem alphaStep_iterate (n : ℕ) (a : ℚ) : alphaStep^[n] a = a * (49/50)^n := by
  induction n with
  | zero => simp
  | succ n ih =>
      rw [Function.iterate_succ_apply', ih, alphaStep, alphaDecay]
      ring

/-- C5 counterexample: after 150 ticks from `alpha = 1` the energy is
still above the `0.001` floor (it is `(49/50)^150 ≈ 0.048`). -/
theorem alpha_not_at_floor_after_150_ticks : alphaMin < alphaStep^[150] 1 := by
  rw [alphaStep_iterate]
  norm_num [alphaMin]

/-- C5 (amended): absent a reheat, alpha is non-increasing tick over tick
under `alpha *= (1 - alphaDecay)`; with the configured decay `0.02` it
falls below the `0.001` floor after 342 ticks from `alpha = 1` — and not
before (after 341 ticks it is still above the floor). -/
theorem alpha_monotone_decay :
    (∀ a : ℚ, 0 ≤ a → alphaStep a ≤ a)
    ∧ alphaStep^[342] 1 < alphaMin
    ∧ alphaMin < alphaStep^[341] 1 := by
  refine ⟨?_, ?_, ?_⟩
  · intro a ha
    rw [alphaStep, alphaDecay]
    nlinarith
  · rw [alphaStep_iterate]
    norm_num [alphaMin]
  · rw [alphaStep_iterate]
    norm_num [alphaMin]

/-- Witness for C5's amended claim at `alpha = 1`. -/
theorem alpha_monotone_decay_witness : (0:ℚ) ≤ 1 ∧ alphaStep 1 ≤ 1 :=
  ⟨by norm_num, alpha_monotone_decay.1 1 (by norm_num)⟩

/-! ### Claim about the edge anchor geometry -/

/-- C8: for a positive radius and a target distinct from the center, the
edge anchor returned by `getEdgePoint` lies at distance exactly
`fromRadius` from the center (stated on squared distances), on the ray
from the center toward the target point. -/
theorem getEdgePoint_on_boundary (fromX fromY fromRadius toX toY : ℝ)
    (hne : (toX, toY) ≠ (fromX, fromY)) (hr : 0 < fromRadius) :
    ((getEdgePoint fromX fromY fromRadius toX toY).1 - fromX)^2
        + ((getEdgePoint fromX fromY fromRadius toX toY).2 - fromY)^2
      = fromRadius^2
    ∧ ∃ t : ℝ, 0 < t
        ∧ (getEdgePoint fromX fromY fromRadius toX toY).1 - fromX = t * (toX - fromX)
        ∧ (getEdgePoint fromX fromY fromRadius toX toY).2 - fromY = t * (toY - fromY) := by
  have hz0 : (⟨toX - fromX, toY - fromY⟩ : ℂ) ≠ 0 := by
    intro h
    apply hne
    have hre := congrArg Complex.re h
    have him := congrArg Complex.im h
    simp only [Complex.zero_re, Complex.zero_im] at hre him
    have hx : toX = fromX := by linarith [hre]
    have hy : toY = fromY := by linarith [him]
    aesop
  have habs : 0 < Complex.abs ⟨toX - fromX, toY - fromY⟩ :=
    Complex.abs.pos hz0
  have hcos : Real.cos (Complex.arg ⟨toX - fromX, toY - fromY⟩)
      = (toX - fromX) / Complex.abs ⟨toX - fromX, toY - fromY⟩ :=
    Complex.cos_arg hz0
  have hsin : Real.sin (Complex.arg ⟨toX - fromX, toY - fromY⟩)
      = (toY - fromY) / Complex.abs ⟨toX - fromX, toY - fromY⟩ :=
    Complex.sin_arg _
  have hA2 : Complex.abs ⟨toX - fromX, toY - fromY⟩ ^ 2
      = (toX - fromX)^2 + (toY - fromY)^2 := by
    rw [Complex.sq_abs, Complex.normSq_apply]
    ring
  have hAne : Complex.abs (⟨toX - fromX, toY - fromY⟩ : ℂ) ≠ 0 := ne_of_gt habs
  refine ⟨?_, fromRadius / Complex.abs ⟨toX - fromX, toY - fromY⟩,
    div_pos hr habs, ?_, ?_⟩
  · simp only [getEdgePoint, hcos, hsin]
    field_simp
    linear_combination (-fromRadius^2) * hA2
  · simp only [getEdgePoint, hcos, hsin]
    field_simp
    ring
  · simp only [getEdgePoint, hcos, hsin]
    field_simp
    ring

/-- Witness for C8 at the unit circle pointing along the x axis. -/
theorem getEdgePoint_on_boundary_witness :
    ((1:ℝ), (0:ℝ)) ≠ ((0:ℝ), (0:ℝ))
    ∧ ((0:ℝ) < 1)
    ∧ (((getEdgePoint 0 0 1 1 0).1 - 0)^2 + ((getEdgePoint 0 0 1 1 0).2 - 0)^2
        = (1:ℝ)^2
      ∧ ∃ t : ℝ, 0 < t ∧ (getEdgePoint 0 0 1 1 0).1 - 0 = t * (1 - 0)
          ∧ (getEdgePoint 0 0 1 1 0).2 - 0 = t * (0 - 0)) :=
  ⟨by norm_num [Prod.ext_iff], by norm_num,
    getEdgePoint_on_boundary 0 0 1 1 0 (by norm_num [Prod.ext_iff]) one_pos⟩

end IdeaField
